import Mathlib

/-!
# The PyOp operator bridge (`onnxruntime/core/external_ops/pyop.cc`)

A shallow embedding of the PyOp kernel: the marshalers `ToPyObj` and
`PyOp::FromTensor`, the kernel's `Compute`, its constructor and destructor, and
the static `PyEnvInit` object.  The embedded interpreter is modelled as an
explicit object heap with reference counts; `ORT_ENFORCE` failures and
undefined behaviour are explicit outcomes that keep the state reached when
they occur.
-/

namespace PyOpBridge

/-! ## Host side: element types, tensors, values -/

/-- One byte of a raw buffer. -/
abbrev Byte := Fin 256

/-- Modelled from the spec: the element types of host tensors, the values of
`DataTypeImpl::GetType<T>()`, are declared in the framework headers, which are
not among the sources.  The four the bridge marshals, boolean, and some of the
other numeric types. -/
inductive DType
  | bool | int8 | uint8 | int16 | int32 | int64 | float16 | float32 | float64
  deriving DecidableEq

/-- Size in bytes of one element (`sizeof(T)`). -/
def DType.elemSize : DType → Nat
  | .bool => 1
  | .int8 => 1
  | .uint8 => 1
  | .int16 => 2
  | .int32 => 4
  | .int64 => 8
  | .float16 => 2
  | .float32 => 4
  | .float64 => 8

/-- Modelled from the spec: `Tensor` is declared in `core/framework/tensor.h`,
which is not among the sources.  A tensor is its element type (`DataType()`),
its dimension sizes (`Shape().GetDims()`, non-negative for a tensor that holds
data) and its raw byte buffer (`DataRaw()`). -/
structure Tensor where
  dtype : DType
  dims : List Nat
  data : List Byte
  deriving DecidableEq

/-- Modelled from the spec: `Tensor::Size()` is declared in `core/framework/tensor.h`,
which is not among the sources; the spec gives the buffer size as the product of
the dims times the dtype's element size. -/
def Tensor.Size (t : Tensor) : Nat :=
  t.dims.prod * t.dtype.elemSize

/-- The data model's invariant on a tensor: its buffer holds exactly `Size()` bytes. -/
def Tensor.WellFormed (t : Tensor) : Prop :=
  t.data.length = t.Size

instance (t : Tensor) : Decidable t.WellFormed :=
  inferInstanceAs (Decidable (t.data.length = t.Size))

/-- Modelled from the spec: `MLValue` is declared in the framework headers, which
are not among the sources.  It holds a tensor (`IsTensor()`), or a plain value
of some type (`Type()`), kept as the raw bytes of the C value. -/
inductive MLValue
  | tensor (t : Tensor)
  | plain (type : DType) (raw : List Byte)
  deriving DecidableEq

/-! ## Foreign side: NumPy element types, objects, the object heap -/

/-- NumPy type numbers used by, or returned to, the bridge. -/
inductive NpyType
  | NPY_BOOL | NPY_INT8 | NPY_UINT8 | NPY_INT16 | NPY_INT32 | NPY_INT64
  | NPY_HALF | NPY_FLOAT | NPY_DOUBLE
  deriving DecidableEq

/-- Item size in bytes of a NumPy element type. -/
def NpyType.elsize : NpyType → Nat
  | .NPY_BOOL => 1
  | .NPY_INT8 => 1
  | .NPY_UINT8 => 1
  | .NPY_INT16 => 2
  | .NPY_INT32 => 4
  | .NPY_INT64 => 8
  | .NPY_HALF => 2
  | .NPY_FLOAT => 4
  | .NPY_DOUBLE => 8

/-- The value of an object of the embedded interpreter.  An array is its
element type, its dimensions, its strides in bytes (one per dimension, possibly
negative), and the memory it lives in: `buffer` is the underlying allocation and
`offset` the position in it that `PyArray_DATA` points to, so the element with
index `(i0, i1, ...)` starts at `offset + i0 * strides[0] + i1 * strides[1] + ...`.
A tuple holds one slot per item: `none` is a `NULL` slot, `some j` a reference
to object `j`. -/
inductive PyVal
  | ndarray (type : NpyType) (dims : List Nat) (strides : List Int) (offset : Nat)
      (buffer : List Byte)
  | arrayScalar (type : NpyType) (data : List Byte)
  | tuple (items : List (Option Nat))
  | number (type : DType) (raw : List Byte)
  | module (name : String)
  | function (name : String)
  | object (tag : String)
  deriving DecidableEq

/-- The `n` bytes of a buffer that start at address `addr`. -/
def slice (buf : List Byte) (addr : Int) (n : Nat) : List Byte :=
  if 0 ≤ addr then (buf.drop addr.toNat).take n else []

/-- Concatenation of `f 0`, ..., `f (n - 1)`. -/
def concatRange : Nat → (Nat → List Byte) → List Byte
  | 0, _ => []
  | n + 1, f => concatRange n f ++ f n

/-- The elements of a strided array in index (row-major) order, each read at
its own address: the array's content, what `tobytes()` returns. -/
def gather (buf : List Byte) (elsize : Nat) : List Nat → List Int → Int → List Byte
  | [], _, addr => slice buf addr elsize
  | d :: ds, [], addr => concatRange d (fun _ => gather buf elsize ds [] addr)
  | d :: ds, s :: ss, addr => concatRange d (fun i => gather buf elsize ds ss (addr + i * s))

/-- The strides NumPy gives a newly allocated C-order array. -/
def cStrides (elsize : Nat) : List Nat → List Int
  | [] => []
  | _ :: ds => ((ds.prod * elsize : Nat) : Int) :: cStrides elsize ds

/-- Whether every dimension other than those of size 1 has the stride of a
row-major layout. -/
def rowMajor (elsize : Nat) : List Nat → List Int → Bool
  | [], _ => true
  | _ :: _, [] => false
  | d :: ds, s :: ss =>
    (d == 1 || s == ((ds.prod * elsize : Nat) : Int)) && rowMajor elsize ds ss

/-- NumPy's `NPY_ARRAY_C_CONTIGUOUS` flag: an array with no element is contiguous;
otherwise each dimension of size other than 1 must have the row-major stride. -/
def cContiguous (elsize : Nat) (dims : List Nat) (strides : List Int) : Bool :=
  dims.prod == 0 || rowMajor elsize dims strides

/-- Shape of an array-like value: an array scalar has the empty shape. -/
def PyVal.shape : PyVal → Option (List Nat)
  | .ndarray _ dims _ _ _ => some dims
  | .arrayScalar _ _ => some []
  | _ => none

/-- Element type of an array-like value. -/
def PyVal.elemType : PyVal → Option NpyType
  | .ndarray ty _ _ _ _ => some ty
  | .arrayScalar ty _ => some ty
  | _ => none

/-- Content of an array-like value: its elements in index order. -/
def PyVal.bytes : PyVal → Option (List Byte)
  | .ndarray ty dims strides offset buffer =>
    some (gather buffer ty.elsize dims strides offset)
  | .arrayScalar _ data => some data
  | _ => none

/-- A heap object: reference count and value.  An object whose count is 0 has
been deallocated; its cell stays in the heap so that object ids are never reused. -/
structure PyObj where
  refcnt : Nat
  val : PyVal
  deriving DecidableEq

/-- The state of the embedded interpreter as the bridge sees it.  An object id
(a non-null `PyObject*`) is an index into `heap`.  `calls` logs every call made
through `PyEval_CallObject` (function name, argument values).  `junk` is the
content of freshly allocated, uninitialised memory.  `initialized` is what
`Py_IsInitialized()` would report. -/
structure World where
  heap : List PyObj
  calls : List (String × List PyVal)
  junk : Byte
  initialized : Bool
  deriving DecidableEq

/-- What the interpreter's environment decides: which modules import (and the id
of the module object), attribute lookup on an object, and what calling a named
function on given argument values returns (`none`: the call raises). -/
structure PyEnv where
  importModule : String → Option Nat
  getAttr : Nat → String → Option Nat
  call : String → List PyVal → Option PyVal

/-- How a step can fail.  `enforce msg` is a failed `ORT_ENFORCE` (an exception the
host turns into an error status).  The others are undefined behaviour in C++:
a null pointer dereference, a `memcpy` past the end of a buffer, a use of an
object that does not exist or has been deallocated. -/
inductive Failure
  | enforce (msg : String)
  | nullDeref
  | outOfBounds
  | badObject
  deriving DecidableEq

/-- Result of running a step from a state: a value and the new state, or a
failure and the state reached when it occurred. -/
inductive Outcome (σ α : Type)
  | ok (a : α) (s : σ)
  | fail (e : Failure) (s : σ)
  deriving DecidableEq

/-- The state an outcome ends in. -/
def Outcome.state {σ α : Type} : Outcome σ α → σ
  | .ok _ s => s
  | .fail _ s => s

/-- Allocation of a new object with reference count 1 (allocation failure is not
modelled). -/
def World.alloc (w : World) (v : PyVal) : Nat × World :=
  (w.heap.length, { w with heap := w.heap ++ [⟨1, v⟩] })

/-- Reference-count decrement on a heap.  Reaching 0 deallocates the object; a
tuple then releases each of its items.  `fuel` bounds the nesting depth of
tuples; `none` is a decrement of a missing or already deallocated object. -/
def decref : Nat → List PyObj → Nat → Option (List PyObj)
  | 0, _, _ => none
  | fuel + 1, h, id =>
    match h[id]? with
    | none => none
    | some o =>
      match o.refcnt with
      | 0 => none
      | 1 =>
        match o.val with
        | .tuple items =>
          items.foldlM
            (fun acc it =>
              match it with
              | none => some acc
              | some j => decref fuel acc j)
            (h.set id { o with refcnt := 0 })
        | _ => some (h.set id { o with refcnt := 0 })
      | rc + 2 => some (h.set id { o with refcnt := rc + 1 })

/-- `Py_DECREF(p)`: `p` must not be `NULL`. -/
def Py_DECREF (p : Option Nat) (w : World) : Outcome World Unit :=
  match p with
  | none => .fail .nullDeref w
  | some id =>
    match decref (w.heap.length + 1) w.heap id with
    | some h => .ok () { w with heap := h }
    | none => .fail .badObject w

/-- `Py_XDECREF(p)`: as `Py_DECREF`, and a no-op on `NULL`. -/
def Py_XDECREF (p : Option Nat) (w : World) : Outcome World Unit :=
  match p with
  | none => .ok () w
  | some id => Py_DECREF (some id) w

/-- `memcpy(dst, src, n)` on buffers of known length: `none` when `n` exceeds
either buffer. -/
def memcpy (dst src : List Byte) (n : Nat) : Option (List Byte) :=
  if n ≤ src.length ∧ n ≤ dst.length then some (src.take n ++ dst.drop n) else none

/-- `PyArray_EMPTY(nd, dims, type, 0)`: a new C-order array of the given shape
and element type that owns a buffer of exactly its size, uninitialised. -/
def PyArray_EMPTY (dims : List Nat) (type : NpyType) (w : World) : Nat × World :=
  w.alloc (.ndarray type dims (cStrides type.elsize dims) 0
    (List.replicate (dims.prod * type.elsize) w.junk))

/-- The statement `memcpy(PyArray_DATA(np_array), src, n)`: the bytes are written
from the data pointer on, whatever the array's strides. -/
def copyIntoArray (np_array : Nat) (src : List Byte) (n : Nat) (w : World) :
    Outcome World Unit :=
  match w.heap[np_array]? with
  | some ⟨rc, .ndarray ty dims strides offset buffer⟩ =>
    match memcpy (buffer.drop offset) src n with
    | some data1 =>
      .ok () { w with
        heap := w.heap.set np_array
          ⟨rc, .ndarray ty dims strides offset (buffer.take offset ++ data1)⟩ }
    | none => .fail .outOfBounds w
  | _ => .fail .badObject w

/-- `PyArray_Return(mp)` (NumPy C-API): a 0-dimensional array is converted to the
equivalent array scalar and the array is released; any other object is returned
as it is. -/
def PyArray_Return (mp : Nat) (w : World) : Outcome World Nat :=
  match w.heap[mp]? with
  | some ⟨_, .ndarray ty [] _ offset buffer⟩ =>
    match w.alloc (.arrayScalar ty ((buffer.drop offset).take ty.elsize)) with
    | (ret, w1) =>
      match Py_DECREF (some mp) w1 with
      | .ok _ w2 => .ok ret w2
      | .fail e w2 => .fail e w2
  | _ => .ok mp w

/-- `PyTuple_New(n)`: a new tuple of `n` `NULL` slots. -/
def PyTuple_New (n : Nat) (w : World) : Nat × World :=
  w.alloc (.tuple (List.replicate n none))

/-- `PyTuple_SetItem(op, i, newitem)`: steals the reference to `newitem`.  On a
tuple with reference count 1 and an index in range the slot is overwritten and
the old item released; otherwise `newitem` is released and nothing is stored
(the call returns -1, which the bridge ignores). -/
def PyTuple_SetItem (op i newitem : Nat) (w : World) : Outcome World Unit :=
  match w.heap[op]? with
  | none => .fail .badObject w
  | some ⟨1, .tuple items⟩ =>
    if i < items.length then
      Py_XDECREF (items[i]?.join)
        { w with heap := w.heap.set op ⟨1, .tuple (items.set i (some newitem))⟩ }
    else Py_XDECREF (some newitem) w
  | some _ => Py_XDECREF (some newitem) w

/-- The values of a tuple's items, in order; `none` when a slot is `NULL` or
refers to no object. -/
def tupleValues (h : List PyObj) : List (Option Nat) → Option (List PyVal)
  | [] => some []
  | none :: _ => none
  | some j :: rest =>
    match h[j]?, tupleValues h rest with
    | some o, some vs => some (o.val :: vs)
    | _, _ => none

/-- `PyEval_CallObject(func, args)`: calls `func` with the items of the tuple
`args` as positional arguments and returns a new reference to the result, or
`NULL` when the call raises.  The callee sees the argument values; it neither
keeps nor releases its arguments, and its result is a new object. -/
def PyEval_CallObject (env : PyEnv) (func : Option Nat) (args : Nat) (w : World) :
    Outcome World (Option Nat) :=
  match func with
  | none => .fail .nullDeref w
  | some f =>
    match w.heap[f]?, w.heap[args]? with
    | some ⟨_, .function name⟩, some ⟨_, .tuple items⟩ =>
      match tupleValues w.heap items with
      | none => .fail .badObject w
      | some argv =>
        match env.call name argv with
        | none => .ok none { w with calls := w.calls ++ [(name, argv)] }
        | some v =>
          .ok (some (w.heap.length))
            { w with calls := w.calls ++ [(name, argv)], heap := w.heap ++ [⟨1, v⟩] }
    | some _, some _ => .ok none w
    | _, _ => .fail .badObject w

/-- `PyArray_Check(p)`: whether the object is an `ndarray`.  The macro reads the
object's type field, so a `NULL` argument is dereferenced. -/
def PyArray_Check (p : Option Nat) (w : World) : Outcome World Bool :=
  match p with
  | none => .fail .nullDeref w
  | some id =>
    match w.heap[id]? with
    | some ⟨_, .ndarray _ _ _ _ _⟩ => .ok true w
    | some _ => .ok false w
    | none => .fail .badObject w

/-- `PyArray_NDIM` / `PyArray_SHAPE` of an array object: the loop that pushes
each dimension onto `shape`. -/
def PyArray_SHAPE (id : Nat) (w : World) : List Nat :=
  match w.heap[id]? with
  | some ⟨_, .ndarray _ dims _ _ _⟩ => dims
  | _ => []

/-- `PyArray_DATA` of an array object: the raw memory from the array's data
pointer to the end of its buffer.  It is the array's content only when the
array is C-contiguous. -/
def PyArray_DATA (id : Nat) (w : World) : List Byte :=
  match w.heap[id]? with
  | some ⟨_, .ndarray _ _ _ offset buffer⟩ => buffer.drop offset
  | _ => []

/-! ## The marshalers -/

/-- `ToPyObj` (pyop.cc, lines 29-60). -/
def ToPyObj (mlValue : MLValue) (w : World) : Outcome World (Option Nat) :=
  match mlValue with
  | .tensor tensor =>
    let allocated : Option (Nat × World) :=
      if tensor.dtype = .int32 then some (PyArray_EMPTY tensor.dims .NPY_INT32 w)
      else if tensor.dtype = .int64 then some (PyArray_EMPTY tensor.dims .NPY_INT64 w)
      else if tensor.dtype = .float32 then some (PyArray_EMPTY tensor.dims .NPY_FLOAT w)
      else if tensor.dtype = .float64 then some (PyArray_EMPTY tensor.dims .NPY_DOUBLE w)
      else none
    match allocated with
    | none => .fail (.enforce "input not supported") w
    | some (pyObj, w1) =>
      match copyIntoArray pyObj tensor.data tensor.Size w1 with
      | .fail e w2 => .fail e w2
      | .ok _ w2 =>
        match PyArray_Return pyObj w2 with
        | .fail e w3 => .fail e w3
        | .ok r w3 => .ok (some r) w3
  | .plain type raw =>
    if type = .int32 ∨ type = .int64 ∨ type = .float32 ∨ type = .float64 then
      match w.alloc (.number type raw) with
      | (pyObj, w1) => .ok (some pyObj) w1
    else .fail (.enforce "input not supported") w

/-- `PyOp::FromTensor` (pyop.cc, lines 128-136). -/
def FromTensor (tensor : Tensor) (w : World) : Outcome World Nat :=
  if tensor.dtype = .int32 then
    match PyArray_EMPTY tensor.dims .NPY_INT32 w with
    | (obj, w1) =>
      match copyIntoArray obj tensor.data tensor.Size w1 with
      | .fail e w2 => .fail e w2
      | .ok _ w2 => PyArray_Return obj w2
  else .fail (.enforce "input type not int32_t") w

/-! ## The kernel -/

/-- Modelled from the spec: `OpKernelContext` is declared in the framework
headers, which are not among the sources.  The context carries the input
tensors, the element type the operator declares for output 0, and output
slot 0 (`none`: no output tensor allocated yet). -/
structure OpKernelContext where
  inputs : List Tensor
  outputType : DType
  output : Option Tensor
  deriving DecidableEq

/-- Modelled from the spec: `OpKernelContext::Output(0, shape)` allocates the
output tensor, of the declared element type and sized from the given shape, in
slot 0 and returns it; its buffer is uninitialised. -/
def OpKernelContext.Output (ctx : OpKernelContext) (shape : List Nat) (junk : Byte) :
    Tensor × OpKernelContext :=
  (⟨ctx.outputType, shape, List.replicate (shape.prod * ctx.outputType.elemSize) junk⟩,
   { ctx with
     output := some ⟨ctx.outputType, shape,
       List.replicate (shape.prod * ctx.outputType.elemSize) junk⟩ })

/-- Modelled from the spec: `OpKernelInfo::GetAttr` reads a named string
attribute of the node; the lookup fails when the attribute is absent. -/
structure OpKernelInfo where
  attrs : List (String × String)
  deriving DecidableEq

/-- Attribute lookup, `info.GetAttr(name, &value)`. -/
def OpKernelInfo.GetAttr (info : OpKernelInfo) (name : String) : Option String :=
  info.attrs.lookup name

/-- The kernel's fields: `pyModule_` and `pyFunc_` (`none` is `nullptr`). -/
structure PyOp where
  pyModule_ : Option Nat
  pyFunc_ : Option Nat
  deriving DecidableEq

/-- The argument loop of `Compute` (lines 97-99), from input `i` on. -/
def marshalInputs : List Tensor → Nat → Nat → World → Outcome World Unit
  | [], _, _, w => .ok () w
  | t :: ts, i, pyArgs, w =>
    match FromTensor t w with
    | .fail e w1 => .fail e w1
    | .ok obj w1 =>
      match PyTuple_SetItem pyArgs i obj w1 with
      | .fail e w2 => .fail e w2
      | .ok _ w2 => marshalInputs ts (i + 1) pyArgs w2

/-- The decode step of `Compute` (lines 102-112): from the check of the result
to the final release of it. -/
def decodeResult (pyResult : Option Nat) (context : OpKernelContext) (w : World) :
    Outcome (OpKernelContext × World) Unit :=
  match PyArray_Check pyResult w with
  | .fail e w1 => .fail e (context, w1)
  | .ok false w1 => .fail (.enforce "PyArray_Check(pyResult)") (context, w1)
  | .ok true w1 =>
    match pyResult with
    | none => .fail .nullDeref (context, w1)
    | some np_array =>
      match context.Output (PyArray_SHAPE np_array w1) w1.junk with
      | (output_tensor, context1) =>
        if output_tensor.dtype = .int32 then
          match memcpy output_tensor.data (PyArray_DATA np_array w1) output_tensor.Size with
          | none => .fail .outOfBounds (context1, w1)
          | some bytes =>
            match Py_DECREF pyResult w1 with
            | .fail e w2 =>
              .fail e ({ context1 with output := some { output_tensor with data := bytes } }, w2)
            | .ok _ w2 =>
              .ok () ({ context1 with output := some { output_tensor with data := bytes } }, w2)
        else .fail (.enforce "output type not int32_t") (context1, w1)

/-- `PyOp::Compute` (pyop.cc, lines 95-113). -/
def Compute (env : PyEnv) (k : PyOp) (context : OpKernelContext) (w : World) :
    Outcome (OpKernelContext × World) Unit :=
  match PyTuple_New context.inputs.length w with
  | (pyArgs, w1) =>
    match marshalInputs context.inputs 0 pyArgs w1 with
    | .fail e w2 => .fail e (context, w2)
    | .ok _ w2 =>
      match PyEval_CallObject env k.pyFunc_ pyArgs w2 with
      | .fail e w3 => .fail e (context, w3)
      | .ok pyResult w3 =>
        match Py_DECREF (some pyArgs) w3 with
        | .fail e w4 => .fail e (context, w4)
        | .ok _ w4 => decodeResult pyResult context w4

/-! ## Runtime lifecycle, construction and destruction of the kernel -/

/-- `Py_Initialize()` (with `_import_array()` after it): the interpreter is up
afterwards; a no-op when it already is. -/
def Py_Initialize (w : World) : World :=
  { w with initialized := true }

/-- Constructor of the static object `pyEnvInit` (lines 17-20), run when the
plugin is loaded. -/
def PyEnvInit.ctor (w : World) : World :=
  Py_Initialize w

/-- A new reference to an object the interpreter hands out: its reference count
goes up by one.  `NULL` when there is no such object. -/
def newReference (p : Option Nat) (w : World) : Option Nat × World :=
  match p with
  | none => (none, w)
  | some id =>
    match w.heap[id]? with
    | some o => (some id, { w with heap := w.heap.set id { o with refcnt := o.refcnt + 1 } })
    | none => (none, w)

/-- `PyImport_ImportModule(name)`: a new reference to the module, or `NULL`. -/
def PyImport_ImportModule (env : PyEnv) (name : String) (w : World) : Option Nat × World :=
  newReference (env.importModule name) w

/-- `PyObject_GetAttrString(o, name)`: a new reference to the attribute, or `NULL`. -/
def PyObject_GetAttrString (env : PyEnv) (o : Nat) (name : String) (w : World) :
    Option Nat × World :=
  newReference (env.getAttr o name) w

/-- `PyCallable_Check(o)`. -/
def PyCallable_Check (o : Nat) (w : World) : Bool :=
  match w.heap[o]? with
  | some ⟨_, .function _⟩ => true
  | _ => false

/-- The constructor `PyOp::PyOp` (lines 82-93).  A failed `ORT_ENFORCE` throws
out of the constructor: no kernel exists afterwards and the destructor does not
run. -/
def PyOp.ctor (env : PyEnv) (info : OpKernelInfo) (w : World) : Outcome World PyOp :=
  match info.GetAttr "module" with
  | none => .fail (.enforce "module not specified") (Py_Initialize w)
  | some modName =>
    match info.GetAttr "function" with
    | none => .fail (.enforce "script not specified") (Py_Initialize w)
    | some script =>
      match PyImport_ImportModule env modName (Py_Initialize w) with
      | (none, w1) => .fail (.enforce "import python module failed") w1
      | (some pyModule, w1) =>
        match PyObject_GetAttrString env pyModule script w1 with
        | (none, w2) => .fail (.enforce "script not callable") w2
        | (some pyFunc, w2) =>
          if PyCallable_Check pyFunc w2 then .ok ⟨some pyModule, some pyFunc⟩ w2
          else .fail (.enforce "script not callable") w2

/-- Marshaling a tensor the way `Compute` marshals an input (`FromTensor`), then
decoding the object obtained the way `Compute` decodes the result of the call. -/
def marshalThenDecode (t : Tensor) (context : OpKernelContext) (w : World) :
    Outcome (OpKernelContext × World) Unit :=
  match FromTensor t w with
  | .fail e w1 => .fail e (context, w1)
  | .ok obj w1 => decodeResult (some obj) context w1

/-! ## Heap layout of one `Compute` call -/

/-- Objects a marshaler leaves on the heap for one tensor: the array, with
reference count `rc`; for a 0-dimensional tensor the released array and the
array scalar made from it. -/
def marshalled (ty : NpyType) (dims : List Nat) (data : List Byte) (rc : Nat) : List PyObj :=
  if dims = [] then
    [⟨0, .ndarray ty [] [] 0 data⟩, ⟨rc, .arrayScalar ty (data.take ty.elsize)⟩]
  else [⟨rc, .ndarray ty dims (cStrides ty.elsize dims) 0 data⟩]

/-- Position, among the objects of `marshalled`, of the object handed out. -/
def marshalledAt (dims : List Nat) : Nat :=
  if dims = [] then 1 else 0

/-- Object ids of the arguments marshalled for a list of inputs, the first
object being allocated at `base`. -/
def argIds (base : Nat) : List Tensor → List Nat
  | [] => []
  | t :: ts =>
    (base + marshalledAt t.dims) :: argIds (base + (1 + marshalledAt t.dims)) ts

/-- Objects marshalling a list of inputs leaves on the heap, the arguments
themselves with reference count `rc`. -/
def argObjs (rc : Nat) : List Tensor → List PyObj
  | [] => []
  | t :: ts => marshalled .NPY_INT32 t.dims t.data rc ++ argObjs rc ts

/-- Value of the argument marshalled for one input. -/
def argVal (t : Tensor) : PyVal :=
  if t.dims = [] then .arrayScalar .NPY_INT32 (t.data.take NpyType.NPY_INT32.elsize)
  else .ndarray .NPY_INT32 t.dims (cStrides NpyType.NPY_INT32.elsize t.dims) 0 t.data

/-- State after the argument loop, the call and the release of the argument
tuple, `added` being the objects the call put on the heap. -/
def afterCall (w : World) (ts : List Tensor) (name : String) (added : List PyObj) : World :=
  { w with
    heap := w.heap ++ ⟨0, .tuple ((argIds (w.heap.length + 1) ts).map some)⟩
      :: (argObjs 0 ts ++ added),
    calls := w.calls ++ [(name, ts.map argVal)] }

/-! ## A sample interpreter -/

/-- Adds one to each little-endian int32 of a buffer (low byte only). -/
def addOneBytes : List Byte → List Byte
  | b0 :: b1 :: b2 :: b3 :: rest => (b0 + 1) :: b1 :: b2 :: b3 :: addOneBytes rest
  | _ => []

/-- A sample environment: the module `math_ops` (object 0) with the functions
`add_one` (object 1), `to_float64` (object 2, returns the float64 array `[pi]`),
`nothing` (object 3, returns `None`), `boom` (object 4, raises) and `transpose`
(object 6, returns the transposed view `x.T` of a two-dimensional array: the
same memory content, dimensions and strides swapped), and the attribute
`version` (object 5), which is not callable. -/
def mathOps : PyEnv where
  importModule := fun name => if name = "math_ops" then some 0 else none
  getAttr := fun o name =>
    if o = 0 then
      if name = "add_one" then some 1
      else if name = "to_float64" then some 2
      else if name = "nothing" then some 3
      else if name = "boom" then some 4
      else if name = "version" then some 5
      else if name = "transpose" then some 6
      else none
    else none
  call := fun name args =>
    if name = "add_one" then
      match args with
      | [.ndarray .NPY_INT32 dims strides offset buffer] =>
        some (.ndarray .NPY_INT32 dims (cStrides 4 dims) 0
          (addOneBytes (gather buffer 4 dims strides offset)))
      | _ => none
    else if name = "to_float64" then
      some (.ndarray .NPY_DOUBLE [1] [8] 0 [24, 45, 68, 84, 251, 33, 9, 64])
    else if name = "nothing" then some (.object "None")
    else if name = "transpose" then
      match args with
      | [.ndarray ty [d0, d1] [s0, s1] offset buffer] =>
        some (.ndarray ty [d1, d0] [s1, s0] offset buffer)
      | _ => none
    else none

/-- The interpreter's objects for `mathOps`, before the plugin is loaded. -/
def mathOpsWorld : World where
  heap := [⟨1, .module "math_ops"⟩, ⟨1, .function "add_one"⟩, ⟨1, .function "to_float64"⟩,
    ⟨1, .function "nothing"⟩, ⟨1, .function "boom"⟩, ⟨1, .object "version"⟩,
    ⟨1, .function "transpose"⟩]
  calls := []
  junk := 170
  initialized := false

/-- The int32 tensor `[[1,2],[3,4]]`. -/
def sampleInput : Tensor :=
  ⟨.int32, [2, 2], [1, 0, 0, 0, 2, 0, 0, 0, 3, 0, 0, 0, 4, 0, 0, 0]⟩

theorem memcpy_full (dst src : List Byte) (n : Nat) (hd : dst.length = n) (hs : src.length = n) :
    memcpy dst src n = some src := by
  subst hs
  simp [memcpy, hd]

theorem getElem?_mid {α : Type} (P : List α) (x : α) (S : List α) :
    (P ++ x :: S)[P.length]? = some x := by
  induction P with
  | nil => simp
  | cons p P ih => simpa using ih

theorem set_mid {α : Type} (P : List α) (x y : α) (S : List α) :
    (P ++ x :: S).set P.length y = P ++ y :: S := by
  induction P with
  | nil => rfl
  | cons p P ih => simp

theorem concatRange_nil (n : Nat) : concatRange n (fun _ => []) = [] := by
  induction n with
  | zero => rfl
  | succ n ih => simp [concatRange, ih]

theorem concatRange_chunks (buf : List Byte) (off m : Nat) (d : Nat) :
    concatRange d (fun i => (buf.drop (off + i * m)).take m) = (buf.drop off).take (d * m) := by
  induction d with
  | zero => simp [concatRange]
  | succ d ih =>
    simp only [concatRange, ih]
    rw [Nat.succ_mul, List.take_add, List.drop_drop]

theorem gather_empty (buf : List Byte) (elsize : Nat) :
    ∀ (dims : List Nat) (strides : List Int) (addr : Int), dims.prod = 0 →
      gather buf elsize dims strides addr = [] := by
  intro dims
  induction dims with
  | nil => intro strides addr h; simp at h
  | cons d ds ih =>
    intro strides addr h
    rw [List.prod_cons, Nat.mul_eq_zero] at h
    cases strides with
    | nil =>
      rcases h with h | h
      · subst h; rfl
      · simp only [gather]
        have : (fun _ : Nat => gather buf elsize ds [] addr) = fun _ => [] := by
          funext _; exact ih _ _ h
        rw [this, concatRange_nil]
    | cons s ss =>
      rcases h with h | h
      · subst h; rfl
      · simp only [gather]
        have : (fun i : Nat => gather buf elsize ds ss (addr + i * s)) = fun _ => [] := by
          funext _; exact ih _ _ h
        rw [this, concatRange_nil]

theorem gather_rowMajor (buf : List Byte) (elsize : Nat) :
    ∀ (dims : List Nat) (strides : List Int) (off : Nat), rowMajor elsize dims strides = true →
      gather buf elsize dims strides off = (buf.drop off).take (dims.prod * elsize) := by
  intro dims
  induction dims with
  | nil =>
    intro strides off _
    simp [gather, slice]
  | cons d ds ih =>
    intro strides off h
    cases strides with
    | nil => simp [rowMajor] at h
    | cons s ss =>
      simp only [rowMajor, Bool.and_eq_true, Bool.or_eq_true, beq_iff_eq] at h
      obtain ⟨h1, h2⟩ := h
      simp only [gather]
      rcases h1 with h1 | h1
      · subst h1
        simp only [concatRange, List.nil_append]
        have : ((off : Int) + ((0 : Nat) : Int) * s) = (off : Int) := by simp
        rw [this, ih ss off h2]
        simp
      · subst h1
        have : (fun i : Nat => gather buf elsize ds ss
            ((off : Int) + (i : Int) * ((ds.prod * elsize : Nat) : Int)))
            = fun i => (buf.drop (off + i * (ds.prod * elsize))).take (ds.prod * elsize) := by
          funext i
          have e : ((off : Int) + (i : Int) * ((ds.prod * elsize : Nat) : Int))
              = ((off + i * (ds.prod * elsize) : Nat) : Int) := by push_cast; ring
          rw [e, ih ss _ h2]
        rw [this, concatRange_chunks, List.prod_cons, Nat.mul_assoc]

theorem gather_contiguous (buf : List Byte) (elsize : Nat) (dims : List Nat)
    (strides : List Int) (off : Nat) (h : cContiguous elsize dims strides = true) :
    gather buf elsize dims strides off = (buf.drop off).take (dims.prod * elsize) := by
  simp only [cContiguous, Bool.or_eq_true, beq_iff_eq] at h
  rcases h with h | h
  · rw [gather_empty buf elsize dims strides off h, h]
    simp
  · exact gather_rowMajor buf elsize dims strides off h

theorem rowMajor_cStrides (elsize : Nat) (dims : List Nat) :
    rowMajor elsize dims (cStrides elsize dims) = true := by
  induction dims with
  | nil => rfl
  | cons d ds ih => simp [rowMajor, cStrides, ih]

theorem gather_cStrides (data : List Byte) (elsize : Nat) (dims : List Nat)
    (hlen : data.length = dims.prod * elsize) :
    gather data elsize dims (cStrides elsize dims) ((0 : Nat) : Int) = data := by
  rw [gather_rowMajor data elsize dims _ 0 (rowMajor_cStrides elsize dims), List.drop_zero]
  exact List.take_of_length_le (by omega)

theorem decref_leaf (fuel : Nat) (h : List PyObj) (id : Nat) (v : PyVal)
    (hv : ∀ items, v ≠ .tuple items) (hget : h[id]? = some ⟨1, v⟩) :
    decref (fuel + 1) h id = some (h.set id ⟨0, v⟩) := by
  simp only [decref, hget]

theorem PyArray_Return_array (mp rc : Nat) (ty : NpyType) (dims : List Nat)
    (strides : List Int) (off : Nat) (buf : List Byte)
    (w : World) (hget : w.heap[mp]? = some ⟨rc, .ndarray ty dims strides off buf⟩)
    (hd : dims ≠ []) :
    PyArray_Return mp w = .ok mp w := by
  unfold PyArray_Return
  rw [hget]
  cases dims with
  | nil => exact absurd rfl hd
  | cons d ds => rfl

theorem PyArray_Return_zero_dim (h : List PyObj) (ty : NpyType) (data : List Byte) (w : World)
    (hw : w.heap = h ++ [⟨1, .ndarray ty [] [] 0 data⟩]) :
    PyArray_Return h.length w
      = .ok (h.length + 1)
          { w with heap := h ++ [⟨0, .ndarray ty [] [] 0 data⟩,
                                 ⟨1, .arrayScalar ty (data.take ty.elsize)⟩] } := by
  have hget : w.heap[h.length]? = some ⟨1, .ndarray ty [] [] 0 data⟩ := by simp [hw]
  have hget2 : (w.heap ++ [(⟨1, .arrayScalar ty (data.take ty.elsize)⟩ : PyObj)])[h.length]?
      = some ⟨1, .ndarray ty [] [] 0 data⟩ := by
    rw [hw, List.append_assoc]
    exact getElem?_mid _ _ _
  unfold PyArray_Return
  rw [hget]
  simp only [World.alloc, Py_DECREF, List.drop_zero]
  rw [decref_leaf _ _ _ _ (by intro items; simp) hget2]
  simp only [hw, List.append_assoc, List.singleton_append, set_mid]
  simp

theorem marshal_fresh (ty : NpyType) (dims : List Nat) (src : List Byte) (w : World)
    (hs : src.length = dims.prod * ty.elsize) :
    (match copyIntoArray w.heap.length src (dims.prod * ty.elsize) (PyArray_EMPTY dims ty w).2 with
      | .fail e w2 => Outcome.fail e w2
      | .ok _ w2 => PyArray_Return w.heap.length w2)
    = .ok (w.heap.length + marshalledAt dims)
        { w with heap := w.heap ++ marshalled ty dims src 1 } := by
  have hm : memcpy (List.replicate (dims.prod * ty.elsize) w.junk) src (dims.prod * ty.elsize)
      = some src := memcpy_full _ _ _ (by simp) hs
  simp only [copyIntoArray, PyArray_EMPTY, World.alloc, List.getElem?_concat_length,
    List.drop_zero, List.take_zero, List.nil_append, hm]
  by_cases hd : dims = []
  · subst hd
    rw [PyArray_Return_zero_dim w.heap ty src _ (by simp [cStrides])]
    simp [marshalled, marshalledAt]
  · rw [PyArray_Return_array w.heap.length 1 ty dims (cStrides ty.elsize dims) 0 src _
      (by simp) hd]
    simp [marshalled, marshalledAt, hd]

theorem marshalled_length (ty : NpyType) (dims : List Nat) (data : List Byte) (rc : Nat) :
    (marshalled ty dims data rc).length = 1 + marshalledAt dims := by
  unfold marshalled marshalledAt
  split <;> simp

theorem FromTensor_int32 (t : Tensor) (w : World) (hty : t.dtype = .int32)
    (hwf : t.WellFormed) :
    FromTensor t w = .ok (w.heap.length + marshalledAt t.dims)
      { w with heap := w.heap ++ marshalled .NPY_INT32 t.dims t.data 1 } := by
  have hsz : t.Size = t.dims.prod * NpyType.NPY_INT32.elsize := by
    simp [Tensor.Size, hty, DType.elemSize, NpyType.elsize]
  unfold FromTensor
  rw [if_pos hty, hsz]
  exact marshal_fresh .NPY_INT32 t.dims t.data w (hwf.trans hsz)

theorem world_eta (w : World) : ({ w with heap := w.heap } : World) = w := by
  cases w; rfl

theorem marshalInputs_ok (ts : List Tensor)
    (hts : ∀ t ∈ ts, t.dtype = .int32 ∧ t.WellFormed) :
    ∀ (w : World) (h0 : List PyObj) (pre : List (Option Nat)) (rest : List PyObj),
      w.heap = h0 ++ ⟨1, .tuple (pre ++ List.replicate ts.length none)⟩ :: rest →
      marshalInputs ts pre.length h0.length w
        = .ok () { w with heap := h0 ++
            ⟨1, .tuple (pre ++ (argIds (h0.length + 1 + rest.length) ts).map some)⟩
              :: (rest ++ argObjs 1 ts) } := by
  induction ts with
  | nil =>
    intro w h0 pre rest hw
    simp only [marshalInputs, argIds, argObjs, List.map_nil, List.append_nil]
    simp only [List.length_nil, List.replicate_zero, List.append_nil] at hw
    rw [← hw, world_eta]
  | cons t ts ih =>
    intro w h0 pre rest hw
    have ht := hts t (List.mem_cons_self _ _)
    have hts2 : ∀ t2 ∈ ts, t2.dtype = .int32 ∧ t2.WellFormed :=
      fun t2 h2 => hts t2 (List.mem_cons_of_mem _ h2)
    have hlen : w.heap.length = h0.length + 1 + rest.length := by
      rw [hw]; simp; omega
    simp only [marshalInputs]
    rw [FromTensor_int32 t w ht.1 ht.2]
    simp only [PyTuple_SetItem]
    have hheap : w.heap ++ marshalled .NPY_INT32 t.dims t.data 1
        = h0 ++ ⟨1, .tuple (pre ++ none :: List.replicate ts.length none)⟩
            :: (rest ++ marshalled .NPY_INT32 t.dims t.data 1) := by
      rw [hw]; simp [List.replicate_succ]
    rw [hheap, getElem?_mid]
    simp only
    have hlt : pre.length < (pre ++ none :: List.replicate ts.length none).length := by
      simp
    rw [if_pos hlt, getElem?_mid, set_mid, set_mid]
    simp only [Option.join, Option.bind, id_eq, Py_XDECREF]
    have := ih hts2 { w with heap := h0 ++
        ⟨1, .tuple (pre ++ some (w.heap.length + marshalledAt t.dims)
          :: List.replicate ts.length none)⟩
            :: (rest ++ marshalled .NPY_INT32 t.dims t.data 1) }
      h0 (pre ++ [some (w.heap.length + marshalledAt t.dims)])
      (rest ++ marshalled .NPY_INT32 t.dims t.data 1) (by simp)
    simp only [List.length_append, List.length_singleton] at this
    rw [this]
    simp [argIds, argObjs, marshalled_length, hlen, Nat.add_assoc]

theorem getElem?_mid_add {α : Type} (P : List α) (Q S : List α) (i : Nat) :
    (P ++ Q ++ S)[P.length + i]? = (Q ++ S)[i]? := by
  rw [List.append_assoc]
  induction P with
  | nil => simp
  | cons p P ih => simpa [Nat.succ_add] using ih

theorem set_mid_add {α : Type} (P : List α) (Q S : List α) (i : Nat) (y : α) :
    (P ++ Q ++ S).set (P.length + i) y = P ++ (Q ++ S).set i y := by
  rw [List.append_assoc]
  induction P with
  | nil => simp
  | cons p P ih => simp [Nat.succ_add]

theorem argObjs_length (rc rc2 : Nat) (ts : List Tensor) :
    (argObjs rc ts).length = (argObjs rc2 ts).length := by
  induction ts with
  | nil => rfl
  | cons t ts ih => simp [argObjs, marshalled_length, ih]

theorem argObj_lookup (t : Tensor) (P S : List PyObj) :
    (P ++ marshalled .NPY_INT32 t.dims t.data 1 ++ S)[P.length + marshalledAt t.dims]?
      = some ⟨1, argVal t⟩ := by
  rw [getElem?_mid_add]
  unfold marshalled marshalledAt argVal
  split <;> simp

theorem argObj_release (t : Tensor) (P S : List PyObj) :
    (P ++ marshalled .NPY_INT32 t.dims t.data 1 ++ S).set (P.length + marshalledAt t.dims)
        ⟨0, argVal t⟩
      = P ++ marshalled .NPY_INT32 t.dims t.data 0 ++ S := by
  rw [set_mid_add]
  unfold marshalled marshalledAt argVal
  split <;> simp

theorem argVal_leaf (t : Tensor) : ∀ items, argVal t ≠ .tuple items := by
  intro items
  unfold argVal
  split <;> simp

theorem tupleValues_args (ts : List Tensor) :
    ∀ (P S : List PyObj),
      tupleValues (P ++ argObjs 1 ts ++ S) ((argIds P.length ts).map some)
        = some (ts.map argVal) := by
  induction ts with
  | nil => intro P S; rfl
  | cons t ts ih =>
    intro P S
    have h1 := argObj_lookup t P (argObjs 1 ts ++ S)
    have h2 := ih (P ++ marshalled .NPY_INT32 t.dims t.data 1) S
    simp only [List.length_append, marshalled_length] at h2
    simp only [argObjs, argIds, List.map_cons, tupleValues]
    simp only [List.append_assoc] at h1 h2 ⊢
    rw [h1, h2]

theorem release_args (fuel : Nat) (ts : List Tensor) :
    ∀ (P S : List PyObj),
      List.foldlM
        (fun acc it =>
          match it with
          | none => some acc
          | some j => decref (fuel + 1) acc j)
        (P ++ argObjs 1 ts ++ S) ((argIds P.length ts).map some)
        = some (P ++ argObjs 0 ts ++ S) := by
  induction ts with
  | nil => intro P S; rfl
  | cons t ts ih =>
    intro P S
    have h1 := argObj_lookup t P (argObjs 1 ts ++ S)
    have h3 := argObj_release t P (argObjs 1 ts ++ S)
    have h2 := ih (P ++ marshalled .NPY_INT32 t.dims t.data 0) S
    simp only [List.length_append, marshalled_length] at h2
    simp only [argObjs, argIds, List.map_cons, List.foldlM_cons]
    simp only [List.append_assoc] at h1 h2 h3 ⊢
    rw [decref_leaf _ _ _ _ (argVal_leaf t) h1, h3]
    exact h2

theorem decref_tuple (fuel : Nat) (h : List PyObj) (id : Nat) (items : List (Option Nat))
    (hget : h[id]? = some ⟨1, .tuple items⟩) :
    decref (fuel + 1) h id
      = items.foldlM
          (fun acc it =>
            match it with
            | none => some acc
            | some j => decref fuel acc j)
          (h.set id ⟨0, .tuple items⟩) := by
  simp only [decref, hget]

theorem Py_DECREF_args (w : World) (h0 S : List PyObj) (ts : List Tensor)
    (hw : w.heap = h0 ++ ⟨1, .tuple ((argIds (h0.length + 1) ts).map some)⟩
      :: (argObjs 1 ts ++ S)) :
    Py_DECREF (some h0.length) w
      = .ok () { w with heap := h0 ++ ⟨0, .tuple ((argIds (h0.length + 1) ts).map some)⟩
          :: (argObjs 0 ts ++ S) } := by
  obtain ⟨fuel, hfuel⟩ : ∃ fuel, w.heap.length = fuel + 1 := by
    refine ⟨h0.length + (argObjs 1 ts ++ S).length, ?_⟩
    rw [hw]; simp; omega
  have hget : w.heap[h0.length]? = some ⟨1, .tuple ((argIds (h0.length + 1) ts).map some)⟩ := by
    rw [hw]; exact getElem?_mid _ _ _
  have hrel := release_args fuel ts
    (h0 ++ [⟨0, .tuple ((argIds (h0.length + 1) ts).map some)⟩]) S
  simp only [List.length_append, List.length_singleton, List.append_assoc,
    List.singleton_append] at hrel
  simp only [Py_DECREF, hfuel]
  rw [decref_tuple _ _ _ _ hget, hw, set_mid]
  simp only [List.cons_append] at hrel
  rw [hrel]

theorem Compute_to_decode (env : PyEnv) (k : PyOp) (ctx : OpKernelContext) (w : World)
    (f rc : Nat) (name : String)
    (hin : ∀ t ∈ ctx.inputs, t.dtype = .int32 ∧ t.WellFormed)
    (hk : k.pyFunc_ = some f) (hf : w.heap[f]? = some ⟨rc, .function name⟩) :
    Compute env k ctx w =
      match env.call name (ctx.inputs.map argVal) with
      | none => decodeResult none ctx (afterCall w ctx.inputs name [])
      | some v =>
        decodeResult (some (w.heap.length + ((argObjs 0 ctx.inputs).length + 1))) ctx
          (afterCall w ctx.inputs name [⟨1, v⟩]) := by
  have hloop := marshalInputs_ok ctx.inputs hin
    { w with heap := w.heap ++ [⟨1, .tuple (List.replicate ctx.inputs.length none)⟩] }
    w.heap [] [] (by simp)
  simp only [List.length_nil, List.nil_append, Nat.add_zero] at hloop
  have hflt : f < w.heap.length := by
    rcases Nat.lt_or_ge f w.heap.length with h | h
    · exact h
    · rw [List.getElem?_eq_none h] at hf; cases hf
  have hfget : ∀ tl : List PyObj, (w.heap ++ tl)[f]? = some ⟨rc, .function name⟩ := by
    intro tl
    rw [List.getElem?_append_left hflt]; exact hf
  have hvals := tupleValues_args ctx.inputs
    (w.heap ++ [⟨1, .tuple ((argIds (w.heap.length + 1) ctx.inputs).map some)⟩]) []
  simp only [List.length_append, List.length_singleton, List.append_assoc,
    List.singleton_append, List.append_nil] at hvals
  unfold Compute
  simp only [PyTuple_New, World.alloc]
  rw [hloop]
  simp only [PyEval_CallObject, hk, hfget, getElem?_mid, hvals]
  cases hc : env.call name (ctx.inputs.map argVal) with
  | none =>
    simp only
    rw [Py_DECREF_args _ w.heap [] ctx.inputs (by simp)]
    simp [afterCall]
  | some v =>
    simp only
    rw [Py_DECREF_args _ w.heap [⟨1, v⟩] ctx.inputs (by simp)]
    simp [afterCall, argObjs_length 1 0]

theorem afterCall_result (w : World) (ts : List Tensor) (name : String) (v : PyVal) :
    (afterCall w ts name [⟨1, v⟩]).heap[w.heap.length + ((argObjs 0 ts).length + 1)]?
      = some ⟨1, v⟩ := by
  have h := getElem?_mid
    (w.heap ++ ⟨0, .tuple ((argIds (w.heap.length + 1) ts).map some)⟩ :: argObjs 0 ts)
    (⟨1, v⟩ : PyObj) []
  simp only [List.length_append, List.length_cons, List.append_assoc, List.cons_append] at h
  simpa [afterCall] using h

theorem decodeResult_wrong_output_type (r rc : Nat) (ty : NpyType) (dims : List Nat)
    (strides : List Int) (off : Nat) (buf : List Byte) (ctx : OpKernelContext) (w : World)
    (hget : w.heap[r]? = some ⟨rc, .ndarray ty dims strides off buf⟩)
    (hout : ctx.outputType ≠ .int32) :
    decodeResult (some r) ctx w
      = .fail (.enforce "output type not int32_t") ((ctx.Output dims w.junk).2, w) := by
  simp [decodeResult, PyArray_Check, PyArray_SHAPE, hget, OpKernelContext.Output, hout]

theorem decodeResult_int32 (r : Nat) (ty : NpyType) (dims : List Nat)
    (strides : List Int) (off : Nat) (buf : List Byte) (ctx : OpKernelContext) (w : World)
    (hget : w.heap[r]? = some ⟨1, .ndarray ty dims strides off buf⟩)
    (hout : ctx.outputType = .int32)
    (hlen : off + dims.prod * 4 ≤ buf.length) :
    decodeResult (some r) ctx w
      = .ok () ({ ctx with
                  output := some ⟨.int32, dims, (buf.drop off).take (dims.prod * 4)⟩ },
                { w with heap := w.heap.set r ⟨0, .ndarray ty dims strides off buf⟩ }) := by
  have hm : memcpy (List.replicate (dims.prod * 4) w.junk) (buf.drop off) (dims.prod * 4)
      = some ((buf.drop off).take (dims.prod * 4)) := by
    have : dims.prod * 4 ≤ buf.length - off := by omega
    simp [memcpy, this]
  have hd : decref (w.heap.length + 1) w.heap r
      = some (w.heap.set r ⟨0, .ndarray ty dims strides off buf⟩) :=
    decref_leaf _ _ _ _ (by intro items; simp) hget
  simp [decodeResult, PyArray_Check, PyArray_SHAPE, PyArray_DATA, hget, OpKernelContext.Output,
    hout, Tensor.Size, DType.elemSize, hm, Py_DECREF, hd]

/-! ## The claims -/

/-- C10: for a tensor whose dtype is outside int32, int64, float32, float64, both
`ToPyObj` and `PyOp::FromTensor` fail with an unsupported-type error, and the
interpreter state at the failure is the state before the call: no array has been
allocated and no byte copied. -/
theorem unsupported_dtype_rejected (t : Tensor) (w : World)
    (h32 : t.dtype ≠ .int32) (h64 : t.dtype ≠ .int64)
    (hf32 : t.dtype ≠ .float32) (hf64 : t.dtype ≠ .float64) :
    ToPyObj (.tensor t) w = .fail (.enforce "input not supported") w
      ∧ FromTensor t w = .fail (.enforce "input type not int32_t") w := by
  constructor
  · simp [ToPyObj, h32, h64, hf32, hf64]
  · simp [FromTensor, h32]

theorem unsupported_dtype_rejected_witness :
    ToPyObj (.tensor ⟨.bool, [2], [1, 0]⟩) mathOpsWorld
        = .fail (.enforce "input not supported") mathOpsWorld
      ∧ FromTensor ⟨.bool, [2], [1, 0]⟩ mathOpsWorld
        = .fail (.enforce "input type not int32_t") mathOpsWorld :=
  unsupported_dtype_rejected ⟨.bool, [2], [1, 0]⟩ mathOpsWorld
    (by decide) (by decide) (by decide) (by decide)

theorem ToPyObj_tensor_eq (t : Tensor) (w : World) (ty : NpyType)
    (hty : (t.dtype = .int32 ∧ ty = .NPY_INT32) ∨ (t.dtype = .int64 ∧ ty = .NPY_INT64)
      ∨ (t.dtype = .float32 ∧ ty = .NPY_FLOAT) ∨ (t.dtype = .float64 ∧ ty = .NPY_DOUBLE))
    (hwf : t.WellFormed) :
    t.Size = t.dims.prod * ty.elsize
      ∧ ToPyObj (.tensor t) w = .ok (some (w.heap.length + marshalledAt t.dims))
          { w with heap := w.heap ++ marshalled ty t.dims t.data 1 } := by
  have hsz : t.Size = t.dims.prod * ty.elsize := by
    rcases hty with ⟨h, rfl⟩ | ⟨h, rfl⟩ | ⟨h, rfl⟩ | ⟨h, rfl⟩ <;>
      simp [Tensor.Size, h, DType.elemSize, NpyType.elsize]
  have hm := marshal_fresh ty t.dims t.data w (hwf.trans hsz)
  rw [← hsz] at hm
  refine ⟨hsz, ?_⟩
  have hfst : ∀ ty2, (PyArray_EMPTY t.dims ty2 w).1 = w.heap.length := fun _ => rfl
  rcases hty with ⟨h, rfl⟩ | ⟨h, rfl⟩ | ⟨h, rfl⟩ | ⟨h, rfl⟩ <;>
    · simp only [ToPyObj, h, hfst, ↓reduceIte, reduceCtorEq]
      have hpair : ∀ ty2, PyArray_EMPTY t.dims ty2 w
          = (w.heap.length, (PyArray_EMPTY t.dims ty2 w).2) := fun _ => rfl
      rw [hpair]
      simp only
      split at hm
      · cases hm
      · rename_i u w2 hc
        simp only [hc, hm]

/-- C9 (amended): for a well-formed tensor of dtype int32, int64, float32 or
float64 that has at least one dimension, `ToPyObj` returns a newly allocated
array (the next free object, reference count 1, every older object unchanged)
with the tensor's shape, the equivalent NumPy element type and its own buffer,
equal byte for byte to the tensor's; the byte count of the copy, `Size()`,
equals the size of the array that `PyArray_EMPTY` allocated. -/
theorem ToPyObj_supported (t : Tensor) (w : World) (ty : NpyType)
    (hty : (t.dtype = .int32 ∧ ty = .NPY_INT32) ∨ (t.dtype = .int64 ∧ ty = .NPY_INT64)
      ∨ (t.dtype = .float32 ∧ ty = .NPY_FLOAT) ∨ (t.dtype = .float64 ∧ ty = .NPY_DOUBLE))
    (hwf : t.WellFormed) (hd : t.dims ≠ []) :
    ∃ w1,
      ToPyObj (.tensor t) w = .ok (some w.heap.length) w1
        ∧ w1.heap[w.heap.length]?
          = some ⟨1, .ndarray ty t.dims (cStrides ty.elsize t.dims) 0 t.data⟩
        ∧ PyArray_Check (some w.heap.length) w1 = .ok true w1
        ∧ (∀ j, j < w.heap.length → w1.heap[j]? = w.heap[j]?)
        ∧ (PyVal.ndarray ty t.dims (cStrides ty.elsize t.dims) 0 t.data).bytes = some t.data
        ∧ t.Size = (PyArray_DATA w.heap.length (PyArray_EMPTY t.dims ty w).2).length := by
  obtain ⟨hsz, heq⟩ := ToPyObj_tensor_eq t w ty hty hwf
  have hget : (w.heap ++ marshalled ty t.dims t.data 1)[w.heap.length]?
      = some ⟨1, .ndarray ty t.dims (cStrides ty.elsize t.dims) 0 t.data⟩ := by
    simp [marshalled, hd]
  refine ⟨{ w with heap := w.heap ++ marshalled ty t.dims t.data 1 }, ?_, hget, ?_, ?_, ?_, ?_⟩
  · simpa [marshalledAt, hd] using heq
  · simp only [PyArray_Check, hget]
  · intro j hj
    exact List.getElem?_append_left hj
  · simp only [PyVal.bytes]
    rw [gather_cStrides t.data ty.elsize t.dims (hwf.trans hsz)]
  · simp [PyArray_DATA, PyArray_EMPTY, World.alloc, hsz]

theorem ToPyObj_supported_witness :
    ∃ w1,
      ToPyObj (.tensor ⟨.float64, [1], [0, 0, 0, 0, 0, 0, 240, 63]⟩) mathOpsWorld
          = .ok (some mathOpsWorld.heap.length) w1
        ∧ w1.heap[mathOpsWorld.heap.length]?
          = some ⟨1, .ndarray .NPY_DOUBLE [1] (cStrides NpyType.NPY_DOUBLE.elsize [1]) 0
              [0, 0, 0, 0, 0, 0, 240, 63]⟩
        ∧ PyArray_Check (some mathOpsWorld.heap.length) w1 = .ok true w1
        ∧ (∀ j, j < mathOpsWorld.heap.length → w1.heap[j]? = mathOpsWorld.heap[j]?)
        ∧ (PyVal.ndarray .NPY_DOUBLE [1] (cStrides NpyType.NPY_DOUBLE.elsize [1]) 0
            [0, 0, 0, 0, 0, 0, 240, 63]).bytes = some [0, 0, 0, 0, 0, 0, 240, 63]
        ∧ Tensor.Size ⟨.float64, [1], [0, 0, 0, 0, 0, 0, 240, 63]⟩
            = (PyArray_DATA mathOpsWorld.heap.length
                (PyArray_EMPTY [1] .NPY_DOUBLE mathOpsWorld).2).length :=
  ToPyObj_supported ⟨.float64, [1], [0, 0, 0, 0, 0, 0, 240, 63]⟩ mathOpsWorld .NPY_DOUBLE
    (Or.inr (Or.inr (Or.inr ⟨rfl, rfl⟩))) (by decide) (by decide)

/-- C9 (counterexample): for the well-formed int32 tensor `7`, which has no
dimension, the object `ToPyObj` returns is not an array: it is an array scalar,
and `PyArray_Check` answers false on it. -/
theorem ToPyObj_zero_dim_counterexample :
    ∃ r w1,
      ToPyObj (.tensor ⟨.int32, [], [7, 0, 0, 0]⟩) mathOpsWorld = .ok (some r) w1
        ∧ w1.heap[r]? = some ⟨1, .arrayScalar .NPY_INT32 [7, 0, 0, 0]⟩
        ∧ PyArray_Check (some r) w1 = .ok false w1 :=
  ⟨_, _, rfl, rfl, rfl⟩

theorem Py_DECREF_no_enforce (p : Option Nat) (w w1 : World) (msg : String) :
    Py_DECREF p w ≠ .fail (.enforce msg) w1 := by
  unfold Py_DECREF
  split
  · simp
  · split <;> simp

theorem Py_XDECREF_no_enforce (p : Option Nat) (w w1 : World) (msg : String) :
    Py_XDECREF p w ≠ .fail (.enforce msg) w1 := by
  unfold Py_XDECREF
  split
  · simp
  · exact Py_DECREF_no_enforce _ _ _ _

theorem copyIntoArray_no_enforce (a : Nat) (src : List Byte) (n : Nat) (w w1 : World)
    (msg : String) :
    copyIntoArray a src n w ≠ .fail (.enforce msg) w1 := by
  unfold copyIntoArray
  split
  · split <;> simp
  · simp

theorem PyArray_Return_no_enforce (mp : Nat) (w w1 : World) (msg : String) :
    PyArray_Return mp w ≠ .fail (.enforce msg) w1 := by
  unfold PyArray_Return
  split
  · split
    split
    · simp
    · rename_i e w2 h
      intro hc
      cases hc
      exact Py_DECREF_no_enforce _ _ _ _ h
  · simp

theorem PyTuple_SetItem_no_enforce (op i newitem : Nat) (w w1 : World) (msg : String) :
    PyTuple_SetItem op i newitem w ≠ .fail (.enforce msg) w1 := by
  unfold PyTuple_SetItem
  split
  · simp
  · split <;> exact Py_XDECREF_no_enforce _ _ _ _
  · exact Py_XDECREF_no_enforce _ _ _ _

theorem PyEval_CallObject_no_enforce (env : PyEnv) (func : Option Nat) (args : Nat)
    (w w1 : World) (msg : String) :
    PyEval_CallObject env func args w ≠ .fail (.enforce msg) w1 := by
  unfold PyEval_CallObject
  split
  · simp
  · split
    · split
      · simp
      · split <;> simp
    · simp
    · simp

theorem FromTensor_enforce (t : Tensor) (w w1 : World) (msg : String)
    (h : FromTensor t w = .fail (.enforce msg) w1) : msg = "input type not int32_t" := by
  unfold FromTensor at h
  split at h
  · split at h
    split at h
    · rename_i e w2 hc
      cases h
      exact absurd hc (copyIntoArray_no_enforce _ _ _ _ _ _)
    · exact absurd h (PyArray_Return_no_enforce _ _ _ _)
  · cases h
    rfl

theorem marshalInputs_enforce (ts : List Tensor) :
    ∀ (i pyArgs : Nat) (w w1 : World) (msg : String),
      marshalInputs ts i pyArgs w = .fail (.enforce msg) w1 → msg = "input type not int32_t" := by
  induction ts with
  | nil => intro i pyArgs w w1 msg h; cases h
  | cons t ts ih =>
    intro i pyArgs w w1 msg h
    unfold marshalInputs at h
    split at h
    · rename_i e w2 hc
      cases h
      exact FromTensor_enforce _ _ _ _ hc
    · split at h
      · rename_i e w3 hc
        cases h
        exact absurd hc (PyTuple_SetItem_no_enforce _ _ _ _ _ _)
      · exact ih _ _ _ _ _ h

theorem decodeResult_enforce (p : Option Nat) (ctx ctx1 : OpKernelContext) (w w1 : World)
    (msg : String) (h : decodeResult p ctx w = .fail (.enforce msg) (ctx1, w1)) :
    (msg = "PyArray_Check(pyResult)" ∧ ctx1 = ctx)
      ∨ (msg = "output type not int32_t"
          ∧ ∃ shape, ctx1 = (ctx.Output shape w1.junk).2 ∧ ctx.outputType ≠ .int32) := by
  unfold decodeResult at h
  split at h
  · rename_i e w2 hc
    unfold PyArray_Check at hc
    split at hc
    · cases hc; cases h
    · split at hc <;> cases hc
      cases h
  · rename_i w2 hc
    cases h
    exact Or.inl ⟨rfl, rfl⟩
  · rename_i w2 hc
    have hw2 : w2 = w := by
      unfold PyArray_Check at hc
      split at hc
      · cases hc
      · split at hc <;> cases hc
        rfl
    subst hw2
    split at h
    · cases h
    · rename_i np
      simp only at h
      split at h
      · split at h
        · cases h
        · split at h
          · rename_i e w3 hd
            cases h
            exact absurd hd (Py_DECREF_no_enforce _ _ _ _)
          · cases h
      · rename_i hne
        cases h
        refine Or.inr ⟨rfl, _, rfl, ?_⟩
        simpa [OpKernelContext.Output] using hne

/-- C3 (amended): when `Compute` fails an `ORT_ENFORCE` check other than the
output dtype check (input marshaling, result not an array), output slot 0 is as
it was before the call; when it fails the output dtype check, the output tensor
has already been allocated and shaped by `Output(0, shape)`, with nothing
written into it. -/
theorem Compute_failure_output (env : PyEnv) (k : PyOp) (ctx ctx1 : OpKernelContext)
    (w w1 : World) (msg : String)
    (h : Compute env k ctx w = .fail (.enforce msg) (ctx1, w1)) :
    (msg ≠ "output type not int32_t" → ctx1 = ctx)
      ∧ (msg = "output type not int32_t" →
          ctx.outputType ≠ .int32 ∧ ∃ shape, ctx1 = (ctx.Output shape w1.junk).2) := by
  unfold Compute at h
  split at h
  split at h
  · rename_i e w2 hc
    cases h
    have hmsg := marshalInputs_enforce _ _ _ _ _ _ hc
    subst hmsg
    exact ⟨fun _ => rfl, fun hne => absurd hne (by decide)⟩
  · split at h
    · rename_i e w3 hc
      cases h
      exact absurd hc (PyEval_CallObject_no_enforce _ _ _ _ _ _)
    · split at h
      · rename_i e w4 hc
        cases h
        exact absurd hc (Py_DECREF_no_enforce _ _ _ _)
      · rcases decodeResult_enforce _ _ _ _ _ _ h with ⟨hmsg, hctx⟩ | ⟨hmsg, shape, hctx, hne⟩
        · subst hmsg
          exact ⟨fun _ => hctx, fun hne => absurd hne (by decide)⟩
        · exact ⟨fun hne2 => absurd hmsg hne2, fun _ => ⟨hne, shape, hctx⟩⟩

theorem Compute_failure_output_witness :
    DType.float64 ≠ .int32 ∧ ∃ shape,
      (⟨[sampleInput], .float64,
        some ⟨.float64, [2, 2], List.replicate 32 170⟩⟩ : OpKernelContext)
        = (OpKernelContext.Output ⟨[sampleInput], .float64, none⟩ shape 170).2 :=
  (Compute_failure_output mathOps ⟨some 0, some 1⟩ ⟨[sampleInput], .float64, none⟩ _
    mathOpsWorld
    (afterCall mathOpsWorld [sampleInput] "add_one"
      [⟨1, .ndarray .NPY_INT32 [2, 2] [8, 4] 0
        [2, 0, 0, 0, 3, 0, 0, 0, 4, 0, 0, 0, 5, 0, 0, 0]⟩])
    "output type not int32_t" (by rfl)).2 rfl

/-- C3 (counterexample): with `add_one` bound, the input `[[1,2],[3,4]]` and a
declared output type float64, `Compute` fails at the output dtype check, and
output slot 0, empty before the call, holds an allocated 2x2 tensor. -/
theorem Compute_failure_output_counterexample :
    ∃ w1, Compute mathOps ⟨some 0, some 1⟩ ⟨[sampleInput], .float64, none⟩ mathOpsWorld
        = .fail (.enforce "output type not int32_t")
            (⟨[sampleInput], .float64, some ⟨.float64, [2, 2], List.replicate 32 170⟩⟩, w1)
      ∧ (⟨[sampleInput], .float64, some ⟨.float64, [2, 2], List.replicate 32 170⟩⟩
          : OpKernelContext).output
        ≠ (⟨[sampleInput], .float64, none⟩ : OpKernelContext).output :=
  ⟨_, by rfl, by decide⟩

/-- C1 (amended): an int32 tensor with at least one dimension, marshaled by
`FromTensor` and decoded by the decode step of `Compute` with declared output
type int32, comes back with exactly its shape and bytes; a tensor of any other
dtype is rejected by `FromTensor` with "input type not int32_t". -/
theorem marshalThenDecode_int32 (t : Tensor) (ctx : OpKernelContext) (w : World) :
    (t.dtype = .int32 → t.dims ≠ [] → t.WellFormed → ctx.outputType = .int32 →
        ∃ w2, marshalThenDecode t ctx w = .ok () ({ ctx with output := some t }, w2))
      ∧ (t.dtype ≠ .int32 →
          marshalThenDecode t ctx w = .fail (.enforce "input type not int32_t") (ctx, w)) := by
  constructor
  · intro hty hd hwf hout
    have hget : (w.heap ++ marshalled .NPY_INT32 t.dims t.data 1)[w.heap.length
        + marshalledAt t.dims]?
        = some ⟨1, .ndarray .NPY_INT32 t.dims (cStrides NpyType.NPY_INT32.elsize t.dims) 0
            t.data⟩ := by
      simp [marshalled, marshalledAt, hd]
    have hlen : 0 + t.dims.prod * 4 ≤ t.data.length := by
      have : t.data.length = t.dims.prod * 4 := by
        simpa [Tensor.WellFormed, Tensor.Size, hty, DType.elemSize] using hwf
      omega
    have htake : (t.data.drop 0).take (t.dims.prod * 4) = t.data := by
      rw [List.drop_zero]
      exact List.take_of_length_le (by
        have : t.data.length = t.dims.prod * 4 := by
          simpa [Tensor.WellFormed, Tensor.Size, hty, DType.elemSize] using hwf
        omega)
    have ht : (⟨.int32, t.dims, t.data⟩ : Tensor) = t := by
      cases t; simp_all
    unfold marshalThenDecode
    rw [FromTensor_int32 t w hty hwf]
    simp only
    rw [decodeResult_int32 _ .NPY_INT32 t.dims _ 0 t.data ctx _ hget hout hlen, htake, ht]
    exact ⟨_, rfl⟩
  · intro hty
    simp [marshalThenDecode, FromTensor, hty]

theorem marshalThenDecode_int32_witness :
    ∃ w2, marshalThenDecode sampleInput ⟨[], .int32, none⟩ mathOpsWorld
      = .ok () (⟨[], .int32, some sampleInput⟩, w2) :=
  (marshalThenDecode_int32 sampleInput ⟨[], .int32, none⟩ mathOpsWorld).1
    (by decide) (by decide) (by decide) (by decide)

/-- C1 (counterexample): the int64 tensor `[1]` does not survive the round trip
with declared output type int64 (`FromTensor` rejects it), and neither does the
0-dimensional int32 tensor `7` with declared output type int32 (it is handed
over as an array scalar, which the decode step rejects). -/
theorem marshalThenDecode_counterexample :
    (¬ ∃ s, marshalThenDecode ⟨.int64, [1], [1, 0, 0, 0, 0, 0, 0, 0]⟩
          ⟨[], .int64, none⟩ mathOpsWorld = .ok () s)
      ∧ (¬ ∃ s, marshalThenDecode ⟨.int32, [], [7, 0, 0, 0]⟩
          ⟨[], .int32, none⟩ mathOpsWorld = .ok () s) := by
  constructor
  · rintro ⟨s, h⟩
    have e : marshalThenDecode ⟨.int64, [1], [1, 0, 0, 0, 0, 0, 0, 0]⟩
        ⟨[], .int64, none⟩ mathOpsWorld
        = .fail (.enforce "input type not int32_t") (⟨[], .int64, none⟩, mathOpsWorld) := by
      rfl
    rw [e] at h
    cases h
  · rintro ⟨s, h⟩
    have e : (marshalThenDecode ⟨.int32, [], [7, 0, 0, 0]⟩
        ⟨[], .int32, none⟩ mathOpsWorld)
        = .fail (.enforce "PyArray_Check(pyResult)") (⟨[], .int32, none⟩,
            (marshalThenDecode ⟨.int32, [], [7, 0, 0, 0]⟩
              ⟨[], .int32, none⟩ mathOpsWorld).state.2) := by
      rfl
    rw [e] at h
    cases h

/-- C2 (amended): when the inputs are well-formed int32 tensors, the bound
function returns an array (of any element type) and the operator's declared
output type is not int32, `Compute` fails with "output type not int32_t"; output
slot 0 is exactly as `Output(0, shape)` left it, an allocated tensor whose buffer
is still uninitialised, so none of the array's bytes has been copied.  The check
reads the declared output type, not the array's element type. -/
theorem Compute_output_type_check (env : PyEnv) (k : PyOp) (ctx : OpKernelContext) (w : World)
    (f rc : Nat) (name : String) (ty : NpyType) (dims : List Nat) (strides : List Int)
    (off : Nat) (buf : List Byte)
    (hin : ∀ t ∈ ctx.inputs, t.dtype = .int32 ∧ t.WellFormed)
    (hk : k.pyFunc_ = some f) (hf : w.heap[f]? = some ⟨rc, .function name⟩)
    (hcall : env.call name (ctx.inputs.map argVal) = some (.ndarray ty dims strides off buf))
    (hout : ctx.outputType ≠ .int32) :
    ∃ w1, Compute env k ctx w
      = .fail (.enforce "output type not int32_t") ((ctx.Output dims w.junk).2, w1) := by
  rw [Compute_to_decode env k ctx w f rc name hin hk hf, hcall]
  simp only
  rw [decodeResult_wrong_output_type _ 1 ty dims strides off buf ctx _
    (afterCall_result _ _ _ _) hout]
  exact ⟨_, rfl⟩

theorem Compute_output_type_check_witness :
    ∃ w1, Compute mathOps ⟨some 0, some 2⟩ ⟨[sampleInput], .float64, none⟩ mathOpsWorld
      = .fail (.enforce "output type not int32_t")
          ((OpKernelContext.Output ⟨[sampleInput], .float64, none⟩ [1]
            mathOpsWorld.junk).2, w1) :=
  Compute_output_type_check mathOps ⟨some 0, some 2⟩ ⟨[sampleInput], .float64, none⟩
    mathOpsWorld 2 1 "to_float64" .NPY_DOUBLE [1] [8] 0 [24, 45, 68, 84, 251, 33, 9, 64]
    (by decide) rfl rfl rfl (by decide)

/-- C2 (counterexample): with declared output type int32 and a bound function
that returns the float64 array `[pi]`, `Compute` succeeds and the output tensor
holds the first four bytes of the float64 buffer. -/
theorem Compute_output_type_counterexample :
    ∃ w1, Compute mathOps ⟨some 0, some 2⟩ ⟨[sampleInput], .int32, none⟩ mathOpsWorld
      = .ok () (⟨[sampleInput], .int32, some ⟨.int32, [1], [24, 45, 68, 84]⟩⟩, w1) :=
  ⟨_, by rfl⟩

/-- C7 (the failing case): when the bound function raises, `PyEval_CallObject`
returns `NULL` and `Compute` passes it to `PyArray_Check`, which dereferences it:
the call ends in undefined behaviour, not in an error status. -/
theorem Compute_call_raises (env : PyEnv) (k : PyOp) (ctx : OpKernelContext) (w : World)
    (f rc : Nat) (name : String)
    (hin : ∀ t ∈ ctx.inputs, t.dtype = .int32 ∧ t.WellFormed)
    (hk : k.pyFunc_ = some f) (hf : w.heap[f]? = some ⟨rc, .function name⟩)
    (hcall : env.call name (ctx.inputs.map argVal) = none) :
    Compute env k ctx w = .fail .nullDeref (ctx, afterCall w ctx.inputs name []) := by
  rw [Compute_to_decode env k ctx w f rc name hin hk hf, hcall]
  rfl

theorem Compute_call_raises_witness :
    Compute mathOps ⟨some 0, some 4⟩ ⟨[sampleInput], .int32, none⟩ mathOpsWorld
      = .fail .nullDeref (⟨[sampleInput], .int32, none⟩,
          afterCall mathOpsWorld [sampleInput] "boom" []) :=
  Compute_call_raises mathOps ⟨some 0, some 4⟩ ⟨[sampleInput], .int32, none⟩ mathOpsWorld
    4 1 "boom" (by decide) rfl rfl rfl

/-- C6 (the failing case): when the bound function returns an object that is not
an array, `Compute` fails at `ORT_ENFORCE(PyArray_Check(pyResult))` and the
result object is left on the heap with reference count 1: it is never released. -/
theorem Compute_result_leaked (env : PyEnv) (k : PyOp) (ctx : OpKernelContext) (w : World)
    (f rc : Nat) (name : String) (v : PyVal)
    (hin : ∀ t ∈ ctx.inputs, t.dtype = .int32 ∧ t.WellFormed)
    (hk : k.pyFunc_ = some f) (hf : w.heap[f]? = some ⟨rc, .function name⟩)
    (hcall : env.call name (ctx.inputs.map argVal) = some v)
    (hv : ∀ ty dims strides off buf, v ≠ .ndarray ty dims strides off buf) :
    Compute env k ctx w
        = .fail (.enforce "PyArray_Check(pyResult)") (ctx, afterCall w ctx.inputs name [⟨1, v⟩])
      ∧ (afterCall w ctx.inputs name [⟨1, v⟩]).heap[w.heap.length
          + ((argObjs 0 ctx.inputs).length + 1)]? = some ⟨1, v⟩ := by
  refine ⟨?_, afterCall_result _ _ _ _⟩
  rw [Compute_to_decode env k ctx w f rc name hin hk hf, hcall]
  simp only [decodeResult, PyArray_Check, afterCall_result]
  cases v <;> first | rfl | exact absurd rfl (hv _ _ _ _ _)

theorem Compute_result_leaked_witness :
    Compute mathOps ⟨some 0, some 3⟩ ⟨[sampleInput], .int32, none⟩ mathOpsWorld
        = .fail (.enforce "PyArray_Check(pyResult)") (⟨[sampleInput], .int32, none⟩,
            afterCall mathOpsWorld [sampleInput] "nothing" [⟨1, .object "None"⟩])
      ∧ (afterCall mathOpsWorld [sampleInput] "nothing" [⟨1, .object "None"⟩]).heap[
          mathOpsWorld.heap.length + ((argObjs 0 [sampleInput]).length + 1)]?
        = some ⟨1, .object "None"⟩ :=
  Compute_result_leaked mathOps ⟨some 0, some 3⟩ ⟨[sampleInput], .int32, none⟩ mathOpsWorld
    3 1 "nothing" (.object "None") (by decide) rfl rfl rfl
    (by intro ty dims strides off buf; simp)

theorem argVal_copy (t : Tensor) (hty : t.dtype = .int32) (hwf : t.WellFormed) :
    (argVal t).shape = some t.dims ∧ (argVal t).bytes = some t.data
      ∧ (argVal t).elemType = some .NPY_INT32 := by
  have hsz : t.data.length = t.dims.prod * NpyType.NPY_INT32.elsize := by
    simpa [Tensor.WellFormed, Tensor.Size, hty, DType.elemSize, NpyType.elsize] using hwf
  unfold argVal
  by_cases hd : t.dims = []
  · have hlen : t.data.length = 4 := by
      simpa [hd, NpyType.elsize] using hsz
    have : t.data.take NpyType.NPY_INT32.elsize = t.data :=
      List.take_of_length_le (by simp [hlen, NpyType.elsize])
    simp [hd, PyVal.shape, PyVal.bytes, PyVal.elemType, this]
  · simp only [hd, if_false, PyVal.shape, PyVal.bytes, PyVal.elemType]
    rw [gather_cStrides t.data _ t.dims hsz]
    simp

theorem args_copy (ts : List Tensor) (hts : ∀ t ∈ ts, t.dtype = .int32 ∧ t.WellFormed) :
    List.Forall₂
      (fun a t => a.shape = some t.dims ∧ a.bytes = some t.data
        ∧ a.elemType = some NpyType.NPY_INT32)
      (ts.map argVal) ts := by
  induction ts with
  | nil => exact List.Forall₂.nil
  | cons t ts ih =>
    have ht := hts t (List.mem_cons_self _ _)
    exact List.Forall₂.cons (argVal_copy t ht.1 ht.2)
      (ih (fun t2 h2 => hts t2 (List.mem_cons_of_mem _ h2)))

theorem Compute_int32_exact (env : PyEnv) (k : PyOp) (ctx : OpKernelContext) (w : World)
    (f rc : Nat) (name : String) (dims : List Nat) (strides : List Int) (off : Nat)
    (buf : List Byte)
    (hin : ∀ t ∈ ctx.inputs, t.dtype = .int32 ∧ t.WellFormed)
    (hk : k.pyFunc_ = some f) (hf : w.heap[f]? = some ⟨rc, .function name⟩)
    (hout : ctx.outputType = .int32)
    (hcall : env.call name (ctx.inputs.map argVal)
      = some (.ndarray .NPY_INT32 dims strides off buf))
    (hbuf : off + dims.prod * NpyType.NPY_INT32.elsize ≤ buf.length) :
    Compute env k ctx w
      = .ok () ({ ctx with
                  output := some ⟨.int32, dims, (buf.drop off).take (dims.prod * 4)⟩ },
          { w with
            heap := w.heap ++ ⟨0, .tuple ((argIds (w.heap.length + 1) ctx.inputs).map some)⟩
              :: (argObjs 0 ctx.inputs ++ [⟨0, .ndarray .NPY_INT32 dims strides off buf⟩]),
            calls := w.calls ++ [(name, ctx.inputs.map argVal)] }) := by
  have hlen : off + dims.prod * 4 ≤ buf.length := hbuf
  have hset := set_mid
    (w.heap ++ ⟨0, .tuple ((argIds (w.heap.length + 1) ctx.inputs).map some)⟩
      :: argObjs 0 ctx.inputs)
    (⟨1, .ndarray .NPY_INT32 dims strides off buf⟩ : PyObj)
    ⟨0, .ndarray .NPY_INT32 dims strides off buf⟩ []
  simp only [List.length_append, List.length_cons, List.append_assoc, List.cons_append] at hset
  rw [Compute_to_decode env k ctx w f rc name hin hk hf, hcall]
  simp only
  rw [decodeResult_int32 _ .NPY_INT32 dims strides off buf ctx _ (afterCall_result _ _ _ _)
    hout hlen]
  simp only [afterCall, hset]

/-- C8 (amended): for well-formed int32 inputs, declared output type int32 and a
bound function that, on the marshalled arguments, returns a C-contiguous int32
array `r` (whose elements lie within its buffer), `Compute` succeeds; the
function has been called exactly once (one entry added to the call log), with
one argument per input, in input order, each having the shape, the bytes and the
int32 element type of its input; output slot 0 holds an int32 tensor with `r`'s
shape and `r`'s bytes. -/
theorem Compute_int32 (env : PyEnv) (k : PyOp) (ctx : OpKernelContext) (w : World)
    (f rc : Nat) (name : String) (dims : List Nat) (strides : List Int) (off : Nat)
    (buf : List Byte)
    (hin : ∀ t ∈ ctx.inputs, t.dtype = .int32 ∧ t.WellFormed)
    (hk : k.pyFunc_ = some f) (hf : w.heap[f]? = some ⟨rc, .function name⟩)
    (hout : ctx.outputType = .int32)
    (hcall : env.call name (ctx.inputs.map argVal)
      = some (.ndarray .NPY_INT32 dims strides off buf))
    (hcontig : cContiguous NpyType.NPY_INT32.elsize dims strides = true)
    (hbuf : off + dims.prod * NpyType.NPY_INT32.elsize ≤ buf.length) :
    ∃ args w1 bytes,
      List.Forall₂
          (fun a t => a.shape = some t.dims ∧ a.bytes = some t.data
            ∧ a.elemType = some NpyType.NPY_INT32)
          args ctx.inputs
        ∧ (PyVal.ndarray .NPY_INT32 dims strides off buf).shape = some dims
        ∧ (PyVal.ndarray .NPY_INT32 dims strides off buf).bytes = some bytes
        ∧ Compute env k ctx w
          = .ok () ({ ctx with output := some ⟨.int32, dims, bytes⟩ }, w1)
        ∧ w1.calls = w.calls ++ [(name, args)] := by
  have hC := Compute_int32_exact env k ctx w f rc name dims strides off buf hin hk hf hout
    hcall hbuf
  have hg := gather_contiguous buf NpyType.NPY_INT32.elsize dims strides off hcontig
  refine ⟨ctx.inputs.map argVal, _, (buf.drop off).take (dims.prod * 4),
    args_copy ctx.inputs hin, rfl, ?_, hC, rfl⟩
  simp only [PyVal.bytes]
  rw [hg]
  rfl

theorem Compute_int32_witness :
    ∃ args w1 bytes,
      List.Forall₂
          (fun a t => a.shape = some t.dims ∧ a.bytes = some t.data
            ∧ a.elemType = some NpyType.NPY_INT32)
          args [sampleInput]
        ∧ (PyVal.ndarray .NPY_INT32 [2, 2] [8, 4] 0
            [2, 0, 0, 0, 3, 0, 0, 0, 4, 0, 0, 0, 5, 0, 0, 0]).shape = some [2, 2]
        ∧ (PyVal.ndarray .NPY_INT32 [2, 2] [8, 4] 0
            [2, 0, 0, 0, 3, 0, 0, 0, 4, 0, 0, 0, 5, 0, 0, 0]).bytes = some bytes
        ∧ Compute mathOps ⟨some 0, some 1⟩ ⟨[sampleInput], .int32, none⟩ mathOpsWorld
          = .ok () (⟨[sampleInput], .int32, some ⟨.int32, [2, 2], bytes⟩⟩, w1)
        ∧ w1.calls = mathOpsWorld.calls ++ [("add_one", args)] :=
  Compute_int32 mathOps ⟨some 0, some 1⟩ ⟨[sampleInput], .int32, none⟩ mathOpsWorld
    1 1 "add_one" [2, 2] [8, 4] 0 [2, 0, 0, 0, 3, 0, 0, 0, 4, 0, 0, 0, 5, 0, 0, 0]
    (by decide) rfl rfl rfl rfl (by decide) (by decide)

/-- C8 (counterexample): with `transpose` bound and the input `[[1,2],[3,4]]`, the
function returns the int32 array `r = [[1,3],[2,4]]` as a view with strides
`(4, 8)` on the memory `1,2,3,4`; `Compute` succeeds and output slot 0 holds the
bytes of `[[1,2],[3,4]]`, the raw memory, which are not `r`'s bytes. -/
theorem Compute_transposed_counterexample :
    mathOps.call "transpose" ([sampleInput].map argVal)
        = some (.ndarray .NPY_INT32 [2, 2] [4, 8] 0
            [1, 0, 0, 0, 2, 0, 0, 0, 3, 0, 0, 0, 4, 0, 0, 0])
      ∧ (PyVal.ndarray .NPY_INT32 [2, 2] [4, 8] 0
            [1, 0, 0, 0, 2, 0, 0, 0, 3, 0, 0, 0, 4, 0, 0, 0]).bytes
        = some [1, 0, 0, 0, 3, 0, 0, 0, 2, 0, 0, 0, 4, 0, 0, 0]
      ∧ (∃ w1, Compute mathOps ⟨some 0, some 6⟩ ⟨[sampleInput], .int32, none⟩ mathOpsWorld
          = .ok () (⟨[sampleInput], .int32,
              some ⟨.int32, [2, 2], [1, 0, 0, 0, 2, 0, 0, 0, 3, 0, 0, 0, 4, 0, 0, 0]⟩⟩, w1))
      ∧ ([1, 0, 0, 0, 2, 0, 0, 0, 3, 0, 0, 0, 4, 0, 0, 0] : List Byte)
        ≠ [1, 0, 0, 0, 3, 0, 0, 0, 2, 0, 0, 0, 4, 0, 0, 0] :=
  ⟨rfl, rfl, ⟨_, rfl⟩, by decide⟩

theorem argObjs_released (ts : List Tensor) : ∀ o ∈ argObjs 0 ts, o.refcnt = 0 := by
  induction ts with
  | nil => intro o ho; cases ho
  | cons t ts ih =>
    intro o ho
    simp only [argObjs, List.mem_append] at ho
    rcases ho with ho | ho
    · unfold marshalled at ho
      split at ho <;> simp at ho
      · rcases ho with rfl | rfl <;> rfl
      · subst ho; rfl
    · exact ih o ho

/-- On the success path of `Compute` every object the call created (the argument
tuple, the marshalled arrays and the result) ends with reference count 0, and
the objects that existed before the call are untouched. -/
theorem Compute_success_releases (env : PyEnv) (k : PyOp) (ctx : OpKernelContext) (w : World)
    (f rc : Nat) (name : String) (dims : List Nat) (strides : List Int) (off : Nat)
    (buf : List Byte)
    (hin : ∀ t ∈ ctx.inputs, t.dtype = .int32 ∧ t.WellFormed)
    (hk : k.pyFunc_ = some f) (hf : w.heap[f]? = some ⟨rc, .function name⟩)
    (hout : ctx.outputType = .int32)
    (hcall : env.call name (ctx.inputs.map argVal)
      = some (.ndarray .NPY_INT32 dims strides off buf))
    (hbuf : off + dims.prod * NpyType.NPY_INT32.elsize ≤ buf.length) :
    ∃ ctx1 w1 created,
      Compute env k ctx w = .ok () (ctx1, w1)
        ∧ w1.heap = w.heap ++ created
        ∧ ∀ o ∈ created, o.refcnt = 0 := by
  refine ⟨_, _, _, Compute_int32_exact env k ctx w f rc name dims strides off buf hin hk hf
    hout hcall hbuf, rfl, ?_⟩
  intro o ho
  simp only [List.mem_cons, List.mem_append, List.not_mem_nil, or_false] at ho
  rcases ho with rfl | ho | rfl
  · rfl
  · exact argObjs_released _ o ho
  · rfl

/-- C5 (the failing case): when the module imports but has no attribute of the
given name, the constructor fails with "script not callable", no kernel is
constructed, and the reference to the module taken by `PyImport_ImportModule`
is still held: the module's reference count is one more than before. -/
theorem PyOp_ctor_missing_symbol (env : PyEnv) (info : OpKernelInfo) (w : World)
    (modName script : String) (m : Nat) (o : PyObj)
    (hmod : info.GetAttr "module" = some modName)
    (hfun : info.GetAttr "function" = some script)
    (himp : env.importModule modName = some m) (hobj : w.heap[m]? = some o)
    (hattr : env.getAttr m script = none) :
    PyOp.ctor env info w
      = .fail (.enforce "script not callable")
          { Py_Initialize w with heap := w.heap.set m { o with refcnt := o.refcnt + 1 } } := by
  simp [PyOp.ctor, hmod, hfun, PyImport_ImportModule, PyObject_GetAttrString, newReference,
    himp, hattr, Py_Initialize, hobj]

theorem PyOp_ctor_missing_symbol_witness :
    PyOp.ctor mathOps ⟨[("module", "math_ops"), ("function", "subtract_one")]⟩ mathOpsWorld
      = .fail (.enforce "script not callable")
          { Py_Initialize mathOpsWorld with
            heap := mathOpsWorld.heap.set 0
              { (⟨1, .module "math_ops"⟩ : PyObj) with refcnt := 1 + 1 } } :=
  PyOp_ctor_missing_symbol mathOps ⟨[("module", "math_ops"), ("function", "subtract_one")]⟩
    mathOpsWorld "math_ops" "subtract_one" 0 ⟨1, .module "math_ops"⟩ rfl rfl rfl rfl rfl

end PyOpBridge
